import Mathlib

/-!
Verification of the Flask todo REST service (`app.py`): an in-memory task
store behind five HTTP endpoints protected by Basic authentication.

The embedding models the module-level `tasks` list, the handlers of
`TaskListAPI` (GET/POST on the collection) and `TaskAPI` (GET/PUT/DELETE on
an item), the `marshal`/`task_fields` serializer, the `get_password`
credential check, and the request parsing configured through
`reqparse.RequestParser` in the two resources' `__init__` methods.

The request parser and the Basic-auth comparison live in the external
framework (flask_restful / flask_httpauth), so those two pieces are
modelled from the specification's description of them; everything else is
translated directly from `app.py`.
-/

namespace Todo

/-- An internal task record, as stored in the module-level `tasks` list:
`{'id': ..., 'title': ..., 'description': ..., 'done': ...}`. -/
structure Task where
  id : Nat
  title : String
  description : String
  done : Bool
deriving Repr, DecidableEq

/-- The initial contents of the module-level `tasks` list in `app.py`. -/
def tasks : List Task :=
  [⟨1, "Buy groceries", "Milk, Cheese, Pizza, Fruit", false⟩,
   ⟨2, "Learn Python", "Need to find a good Python tutorial on the web", false⟩]

/-- The external representation produced by `marshal(task, task_fields)`:
exactly the fields `title`, `description`, `done`, `uri` (no `id`). -/
structure ExtTask where
  title : String
  description : String
  done : Bool
  uri : String
deriving Repr, DecidableEq

/-- The URL generated by `fields.Url('task')` for a task: the item resource
registered at `/todo/api/v1.0/tasks/<int:id>`. -/
def taskUri (id : Nat) : String :=
  "/todo/api/v1.0/tasks/" ++ toString id

/-- `marshal(task, task_fields)` with the `task_fields` template of `app.py`. -/
def marshal (t : Task) : ExtTask :=
  ⟨t.title, t.description, t.done, taskUri t.id⟩

/-- A JSON value as it can appear for a single field of a request body. -/
inductive JVal where
  | s (v : String)
  | b (v : Bool)
  | n (v : Int)
  | null
deriving Repr, DecidableEq

/-- The JSON body of a POST to the collection: each field either absent
(`none`) or present with some JSON value. -/
structure CreateBody where
  title : Option JVal
  description : Option JVal
deriving Repr, DecidableEq

/-- The JSON body of a PUT to an item. -/
structure UpdateBody where
  title : Option JVal
  description : Option JVal
  done : Option JVal
deriving Repr, DecidableEq

/-- The result of `parse_args` for the update profile of `TaskAPI.__init__`:
for each of title/description/done, `none` when the field was absent (or
null) and `some v` when a well-typed value was supplied. -/
structure UpdateArgs where
  title : Option String
  description : Option String
  done : Option Bool
deriving Repr, DecidableEq

/-- Modelled from the spec: flask_restful's `reqparse` handling of one
optional string argument (`add_argument('title', type=str, location='json')`).
Per spec §4.2, if present the value must be a string; absent fields are left
untouched, and a present field of the wrong type fails with a
`ValidationError` (HTTP 400). A JSON null counts as absent. -/
def parseStrField (name : String) (v : Option JVal) : Except String (Option String) :=
  match v with
  | none => Except.ok none
  | some JVal.null => Except.ok none
  | some (JVal.s x) => Except.ok (some x)
  | some _ => Except.error (name ++ " must be a string")

/-- Modelled from the spec: flask_restful's `reqparse` handling of one
optional boolean argument (`add_argument('done', type=bool, location='json')`).
Per spec §4.2, if present `done` must be boolean; a JSON null counts as
absent; a present non-boolean fails with a `ValidationError` (HTTP 400). -/
def parseBoolField (name : String) (v : Option JVal) : Except String (Option Bool) :=
  match v with
  | none => Except.ok none
  | some JVal.null => Except.ok none
  | some (JVal.b x) => Except.ok (some x)
  | some _ => Except.error (name ++ " must be a boolean")

/-- Modelled from the spec: `self.reqparse.parse_args()` for the create
profile declared in `TaskListAPI.__init__`: `title` required
(`help='No task title provided'`), `description` optional with default `""`.
Per spec §4.2, a missing `title` fails with `ValidationError`; if present,
`title`/`description` must be strings. On success returns the pair
(title, description). -/
def parseCreate (body : CreateBody) : Except String (String × String) :=
  match body.title with
  | none => Except.error "No task title provided"
  | some JVal.null => Except.error "No task title provided"
  | some (JVal.s t) =>
    match parseStrField "description" body.description with
    | Except.error e => Except.error e
    | Except.ok d => Except.ok (t, d.getD "")
  | some _ => Except.error "title must be a string"

/-- Modelled from the spec: `self.reqparse.parse_args()` for the update
profile declared in `TaskAPI.__init__`: `title`, `description`, `done` all
optional; wrong-typed present fields fail with `ValidationError`. -/
def parseUpdate (body : UpdateBody) : Except String UpdateArgs :=
  match parseStrField "title" body.title with
  | Except.error e => Except.error e
  | Except.ok t =>
    match parseStrField "description" body.description with
    | Except.error e => Except.error e
    | Except.ok d =>
      match parseBoolField "done" body.done with
      | Except.error e => Except.error e
      | Except.ok dn => Except.ok ⟨t, d, dn⟩

/-- A response body: the JSON shapes the service can answer with. -/
inductive Body where
  | tasksList (ts : List ExtTask)
  | taskObj (t : ExtTask)
  | resultTrue
  | message (m : String)
  | validationError (m : String)
  | notFound
deriving Repr, DecidableEq

/-- An HTTP response: status code plus JSON body. -/
structure Response where
  status : Nat
  body : Body
deriving Repr, DecidableEq

/-- `get_password` from `app.py`: the single stored credential pair. -/
def get_password (username : String) : Option String :=
  if username = "user1" then some "password" else none

/-- The Basic credentials carried by a request. -/
structure Creds where
  username : String
  password : String
deriving Repr, DecidableEq

/-- Modelled from the spec: flask_httpauth's `login_required` check, which
compares the supplied password by string equality against the password
returned by `get_password` (spec §4.6). -/
def authOk (c : Creds) : Bool :=
  match get_password c.username with
  | some pw => c.password == pw
  | none => false

/-- `tasks[-1]['id'] + 1 if len(tasks) > 0 else 1` from `TaskListAPI.post`. -/
def nextId (s : List Task) : Nat :=
  match s.getLast? with
  | some t => t.id + 1
  | none => 1

/-- `TaskListAPI.get`: returns `{'tasks': [marshal(task, task_fields) ...]}`. -/
def taskList_get (s : List Task) : Response × List Task :=
  (⟨200, Body.tasksList (s.map marshal)⟩, s)

/-- `TaskListAPI.post`: parse args, build the new task with
`id = tasks[-1]['id'] + 1` (or 1 on an empty list), `done = False`, append
it and return `{'task': marshal(task, task_fields)}, 201`. A parse failure
is the framework's 400 response, leaving the list untouched. -/
def taskList_post (s : List Task) (body : CreateBody) : Response × List Task :=
  match parseCreate body with
  | Except.error e => (⟨400, Body.validationError e⟩, s)
  | Except.ok (title, description) =>
    let task : Task := ⟨nextId s, title, description, false⟩
    (⟨201, Body.taskObj (marshal task)⟩, s ++ [task])

/-- `[task for task in tasks if task['id'] == id]` followed by taking
element 0: the first stored task with the given id, if any. -/
def firstMatch (s : List Task) (id : Nat) : Option Task :=
  (s.filter fun t => t.id == id).head?

/-- `TaskAPI.get`: 404 when the filter is empty, else
`{'task': marshal(task[0], task_fields)}`. -/
def task_get (s : List Task) (id : Nat) : Response × List Task :=
  match firstMatch s id with
  | none => (⟨404, Body.notFound⟩, s)
  | some t => (⟨200, Body.taskObj (marshal t)⟩, s)

/-- The loop `for k, v in args.items(): if v is not None: task[k] = v` of
`TaskAPI.put`, applied to one task record: overwrite exactly the fields
whose parsed value is not None; `id` is not an argument, so it is kept. -/
def applyPatch (t : Task) (p : UpdateArgs) : Task :=
  { t with
    title := p.title.getD t.title
    description := p.description.getD t.description
    done := p.done.getD t.done }

/-- In-place mutation of the first task with the given id (the Python code
aliases `task[0]`, a dict inside the `tasks` list, and mutates it). -/
def updateFirst (s : List Task) (id : Nat) (p : UpdateArgs) : List Task :=
  match s with
  | [] => []
  | t :: rest =>
    if t.id == id then applyPatch t p :: rest else t :: updateFirst rest id p

/-- `TaskAPI.put`: 404 when no task matches, then `parse_args` (400 on a
validation failure), then the in-place field update, returning
`{'task': marshal(task, task_fields)}`. -/
def task_put (s : List Task) (id : Nat) (body : UpdateBody) : Response × List Task :=
  match firstMatch s id with
  | none => (⟨404, Body.notFound⟩, s)
  | some t =>
    match parseUpdate body with
    | Except.error e => (⟨400, Body.validationError e⟩, s)
    | Except.ok args =>
      (⟨200, Body.taskObj (marshal (applyPatch t args))⟩, updateFirst s id args)

/-- `tasks.remove(task[0])`: removes the first list element with the given
id (elements before the first match have a different id, hence are not equal
to `task[0]` as records). -/
def removeFirst (s : List Task) (id : Nat) : List Task :=
  match s with
  | [] => []
  | t :: rest => if t.id == id then rest else t :: removeFirst rest id

/-- `TaskAPI.delete`: 404 when no task matches, else remove the match and
return `{'result': True}`. -/
def task_delete (s : List Task) (id : Nat) : Response × List Task :=
  match firstMatch s id with
  | none => (⟨404, Body.notFound⟩, s)
  | some _ => (⟨200, Body.resultTrue⟩, removeFirst s id)

/-- One request to the service: the five routed method/path combinations. -/
inductive Request where
  | listTasks
  | createTask (body : CreateBody)
  | getTask (id : Nat)
  | putTask (id : Nat) (body : UpdateBody)
  | deleteTask (id : Nat)
deriving Repr, DecidableEq

/-- The full request pipeline: both resources carry
`decorators = [auth.login_required]`, so the authentication gate runs before
any handler body; on failure the `unauthorized` error handler answers
403 `{'message': 'Unauthorized access'}` and the store is untouched. -/
def handle (c : Creds) (r : Request) (s : List Task) : Response × List Task :=
  if authOk c then
    match r with
    | Request.listTasks => taskList_get s
    | Request.createTask body => taskList_post s body
    | Request.getTask id => task_get s id
    | Request.putTask id body => task_put s id body
    | Request.deleteTask id => task_delete s id
  else
    (⟨403, Body.message "Unauthorized access"⟩, s)

/-- The store states the running service can be in: the initial `tasks`
list, and anything produced from a reachable state by one request. -/
inductive Reachable : List Task → Prop where
  | init : Reachable tasks
  | step (c : Creds) (r : Request) (s : List Task) :
      Reachable s → Reachable (handle c r s).2

/-- The store invariant: task ids are strictly increasing in list order. -/
def Inv (s : List Task) : Prop :=
  List.Pairwise (· < ·) (s.map Task.id)

instance : DecidablePred Inv := fun s =>
  inferInstanceAs (Decidable (List.Pairwise (· < ·) (s.map Task.id)))

/-- The spec's id rule, stated in its own words: "computes new id as
(max existing id + 1, or 1 if empty)". Kept separate from `nextId`, which
is the code's last-element-plus-one computation, so the two can be
compared. -/
def specNextId (s : List Task) : Nat :=
  if s = [] then 1 else (s.map Task.id).foldr max 0 + 1

/-- A present request-body value that is neither a JSON null nor a string:
the wrong type for a `title`/`description` field. -/
def badStr (v : Option JVal) : Prop :=
  ∃ w, v = some w ∧ w ≠ JVal.null ∧ ∀ x, w ≠ JVal.s x

/-- A present request-body value that is neither a JSON null nor a boolean:
the wrong type for the `done` field. -/
def badBool (v : Option JVal) : Prop :=
  ∃ w, v = some w ∧ w ≠ JVal.null ∧ ∀ x, w ≠ JVal.b x

/-- Whether a response body is a `ValidationError` message (an HTTP 400). -/
def isValidationError : Body → Bool
  | Body.validationError _ => true
  | _ => false

/-- Every `ExtTask` payload of a response body is the serialization of some
task: the external shape `{title, description, done, uri}` of `marshal`. -/
def wellFormedBody : Body → Prop
  | Body.tasksList es => ∀ e ∈ es, ∃ t : Task, e = marshal t
  | Body.taskObj e => ∃ t : Task, e = marshal t
  | _ => True

/-- In a store with strictly increasing ids, every stored id is below the
id that `TaskListAPI.post` would assign next. -/
theorem mem_id_lt_nextId (s : List Task) (h : Inv s) :
    ∀ t ∈ s, t.id < nextId s := by
  rcases List.eq_nil_or_concat s with rfl | ⟨l, a, rfl⟩
  · intro t ht; cases ht
  · rw [List.concat_eq_append] at h ⊢
    have hnext : nextId (l ++ [a]) = a.id + 1 := by
      simp [nextId, List.getLast?_concat]
    rw [hnext]
    have hpw : List.Pairwise (· < ·) (l.map Task.id ++ [a.id]) := by
      simpa [Inv] using h
    have h3 := (List.pairwise_append.1 hpw).2.2
    intro t ht
    rcases List.mem_append.1 ht with hl | ha
    · have := h3 t.id (List.mem_map_of_mem Task.id hl) a.id (by simp)
      omega
    · have : t = a := by simpa using ha
      subst this; omega

theorem le_foldr_max (l : List Nat) : ∀ x ∈ l, x ≤ l.foldr max 0 := by
  induction l with
  | nil => intro x hx; cases hx
  | cons a l ih =>
    intro x hx
    rcases List.mem_cons.1 hx with rfl | hx
    · exact le_max_left _ _
    · exact le_trans (ih x hx) (le_max_right _ _)

theorem foldr_max_le (l : List Nat) (b : Nat) (h : ∀ x ∈ l, x ≤ b) :
    l.foldr max 0 ≤ b := by
  induction l with
  | nil => exact Nat.zero_le b
  | cons a l ih =>
    exact max_le (h a (List.mem_cons_self a l)) (ih fun x hx => h x (List.mem_cons_of_mem a hx))

/-- On a store with strictly increasing ids, the code's
last-element-plus-one id (`nextId`) agrees with the spec's
max-plus-one-or-one id (`specNextId`). -/
theorem nextId_eq_specNextId (s : List Task) (h : Inv s) :
    nextId s = specNextId s := by
  rcases List.eq_nil_or_concat s with rfl | ⟨l, a, rfl⟩
  · simp [nextId, specNextId]
  · rw [List.concat_eq_append] at h ⊢
    have hne : l ++ [a] ≠ [] := by simp
    have hnext : nextId (l ++ [a]) = a.id + 1 := by
      simp [nextId, List.getLast?_concat]
    have hmax : (((l ++ [a]).map Task.id).foldr max 0) = a.id := by
      apply le_antisymm
      · apply foldr_max_le
        intro x hx
        rcases List.mem_map.1 hx with ⟨t, ht, rfl⟩
        have := mem_id_lt_nextId (l ++ [a]) h t ht
        rw [hnext] at this
        omega
      · exact le_foldr_max _ a.id (by simp)
    rw [hnext]
    unfold specNextId
    rw [if_neg hne, hmax]

theorem removeFirst_sublist (s : List Task) (id : Nat) :
    List.Sublist (removeFirst s id) s := by
  induction s with
  | nil => exact List.Sublist.refl []
  | cons t rest ih =>
    by_cases h : t.id = id
    · simp only [removeFirst, h, beq_self_eq_true, if_true]
      exact List.sublist_cons_self t rest
    · simp only [removeFirst, beq_iff_eq, h, if_false]
      exact List.Sublist.cons₂ t ih

theorem applyPatch_id (t : Task) (p : UpdateArgs) : (applyPatch t p).id = t.id := rfl

theorem map_id_updateFirst (s : List Task) (id : Nat) (p : UpdateArgs) :
    (updateFirst s id p).map Task.id = s.map Task.id := by
  induction s with
  | nil => rfl
  | cons t rest ih =>
    by_cases h : t.id = id
    · simp [updateFirst, h, applyPatch]
    · simp [updateFirst, h, ih]

theorem inv_append_nextId (s : List Task) (h : Inv s) (title description : String) :
    Inv (s ++ [⟨nextId s, title, description, false⟩]) := by
  unfold Inv
  rw [List.map_append]
  refine List.pairwise_append.2 ⟨h, by simp, ?_⟩
  intro x hx y hy
  rcases List.mem_map.1 hx with ⟨t, ht, rfl⟩
  have hy' : y = nextId s := by simpa using hy
  subst hy'
  exact mem_id_lt_nextId s h t ht

theorem inv_removeFirst (s : List Task) (id : Nat) (h : Inv s) :
    Inv (removeFirst s id) :=
  List.Pairwise.sublist ((removeFirst_sublist s id).map Task.id) h

theorem inv_updateFirst (s : List Task) (id : Nat) (p : UpdateArgs) (h : Inv s) :
    Inv (updateFirst s id p) := by
  unfold Inv
  rw [map_id_updateFirst]
  exact h

theorem inv_taskList_post (s : List Task) (body : CreateBody) (h : Inv s) :
    Inv (taskList_post s body).2 := by
  unfold taskList_post
  cases parseCreate body with
  | error e => exact h
  | ok pr =>
    obtain ⟨t, d⟩ := pr
    exact inv_append_nextId s h t d

theorem inv_task_get (s : List Task) (id : Nat) (h : Inv s) :
    Inv (task_get s id).2 := by
  unfold task_get
  cases firstMatch s id with
  | none => exact h
  | some t => exact h

theorem inv_task_put (s : List Task) (id : Nat) (body : UpdateBody) (h : Inv s) :
    Inv (task_put s id body).2 := by
  unfold task_put
  cases firstMatch s id with
  | none => exact h
  | some t =>
    cases parseUpdate body with
    | error e => exact h
    | ok args => exact inv_updateFirst s id args h

theorem inv_task_delete (s : List Task) (id : Nat) (h : Inv s) :
    Inv (task_delete s id).2 := by
  unfold task_delete
  cases firstMatch s id with
  | none => exact h
  | some t => exact inv_removeFirst s id h

/-- Every one of the five handlers preserves the strict-ordering invariant. -/
theorem inv_handle (c : Creds) (r : Request) (s : List Task) (h : Inv s) :
    Inv (handle c r s).2 := by
  unfold handle
  by_cases hc : authOk c = true
  · rw [if_pos hc]
    cases r with
    | listTasks => exact h
    | createTask body => exact inv_taskList_post s body h
    | getTask id => exact inv_task_get s id h
    | putTask id body => exact inv_task_put s id body h
    | deleteTask id => exact inv_task_delete s id h
  · rw [if_neg hc]
    exact h

/-- Every reachable store state has strictly increasing ids. -/
theorem reachable_inv (s : List Task) (h : Reachable s) : Inv s := by
  induction h with
  | init => decide
  | step c r s hs ih => exact inv_handle c r s ih

theorem firstMatch_none_iff (s : List Task) (id : Nat) :
    firstMatch s id = none ↔ ∀ t ∈ s, t.id ≠ id := by
  unfold firstMatch
  rw [List.head?_eq_none_iff, List.filter_eq_nil_iff]
  simp

theorem firstMatch_some (s : List Task) (id : Nat) (t : Task)
    (h : firstMatch s id = some t) : t ∈ s ∧ t.id = id := by
  unfold firstMatch at h
  rcases List.head?_eq_some_iff.1 h with ⟨ys, hys⟩
  have ht : t ∈ s.filter (fun x => x.id == id) := by
    rw [hys]; exact List.mem_cons_self t ys
  have := List.mem_filter.1 ht
  exact ⟨this.1, by simpa using this.2⟩

theorem firstMatch_isSome (s : List Task) (id : Nat) (t : Task) (ht : t ∈ s)
    (hid : t.id = id) : ∃ u, firstMatch s id = some u := by
  cases hm : firstMatch s id with
  | none => exact absurd hid ((firstMatch_none_iff s id).1 hm t ht)
  | some u => exact ⟨u, rfl⟩

theorem removeFirst_length (s : List Task) (id : Nat) (t : Task) (ht : t ∈ s)
    (hid : t.id = id) : (removeFirst s id).length + 1 = s.length := by
  induction s with
  | nil => cases ht
  | cons a rest ih =>
    by_cases h : a.id = id
    · simp [removeFirst, h]
    · rcases List.mem_cons.1 ht with rfl | hm
      · exact absurd hid h
      · have := ih hm
        simp only [removeFirst, beq_iff_eq, h, if_false, List.length_cons]
        omega

theorem mem_removeFirst_of_ne (id : Nat) (u : Task) :
    ∀ s : List Task, u ∈ s → u.id ≠ id → u ∈ removeFirst s id := by
  intro s
  induction s with
  | nil => intro hu; cases hu
  | cons a rest ih =>
    intro hu hne
    rcases List.mem_cons.1 hu with rfl | hm
    · have h : ¬(u.id = id) := hne
      simp [removeFirst, h]
    · by_cases h : a.id = id
      · simpa [removeFirst, h] using hm
      · simp only [removeFirst, beq_iff_eq, h, if_false, List.mem_cons]
        exact Or.inr (ih hm hne)

theorem mem_updateFirst_of_ne (id : Nat) (p : UpdateArgs) (u : Task) :
    ∀ s : List Task, u ∈ s → u.id ≠ id → u ∈ updateFirst s id p := by
  intro s
  induction s with
  | nil => intro hu; cases hu
  | cons a rest ih =>
    intro hu hne
    rcases List.mem_cons.1 hu with rfl | hm
    · have h : ¬(u.id = id) := hne
      simp [updateFirst, h]
    · by_cases h : a.id = id
      · simp only [updateFirst, beq_iff_eq, h, if_true, List.mem_cons]
        exact Or.inr hm
      · simp only [updateFirst, beq_iff_eq, h, if_false, List.mem_cons]
        exact Or.inr (ih hm hne)

theorem removeFirst_no_match (id : Nat) :
    ∀ s : List Task, Inv s → ∀ u ∈ removeFirst s id, u.id ≠ id := by
  intro s
  induction s with
  | nil => intro _ u hu; cases hu
  | cons a rest ih =>
    intro h u hu
    have hpw : (∀ b ∈ rest.map Task.id, a.id < b) ∧ Inv rest := by
      unfold Inv at h ⊢
      rw [List.map_cons] at h
      exact List.pairwise_cons.1 h
    by_cases hc : a.id = id
    · simp only [removeFirst, beq_iff_eq, hc, if_true] at hu
      have := hpw.1 u.id (List.mem_map_of_mem Task.id hu)
      omega
    · simp only [removeFirst, beq_iff_eq, hc, if_false, List.mem_cons] at hu
      rcases hu with rfl | hu
      · exact hc
      · exact ih hpw.2 u hu

theorem parseStrField_ok_none (name : String) (v : Option JVal) (o : Option String)
    (h : parseStrField name v = Except.ok o) (hv : v = none ∨ v = some JVal.null) :
    o = none := by
  rcases hv with rfl | rfl
  · simp only [parseStrField] at h
    injection h with h
    exact h.symm
  · simp only [parseStrField] at h
    injection h with h
    exact h.symm

theorem parseStrField_ok_some (name : String) (v : Option JVal) (o : Option String)
    (x : String) (h : parseStrField name v = Except.ok o) (hv : v = some (JVal.s x)) :
    o = some x := by
  subst hv
  simp only [parseStrField] at h
  injection h with h
  exact h.symm

theorem parseBoolField_ok_none (name : String) (v : Option JVal) (o : Option Bool)
    (h : parseBoolField name v = Except.ok o) (hv : v = none ∨ v = some JVal.null) :
    o = none := by
  rcases hv with rfl | rfl
  · simp only [parseBoolField] at h
    injection h with h
    exact h.symm
  · simp only [parseBoolField] at h
    injection h with h
    exact h.symm

theorem parseBoolField_ok_some (name : String) (v : Option JVal) (o : Option Bool)
    (x : Bool) (h : parseBoolField name v = Except.ok o) (hv : v = some (JVal.b x)) :
    o = some x := by
  subst hv
  simp only [parseBoolField] at h
  injection h with h
  exact h.symm

theorem parseStrField_bad (name : String) (w : JVal) (hwn : w ≠ JVal.null)
    (hws : ∀ x, w ≠ JVal.s x) :
    ∃ e, parseStrField name (some w) = Except.error e := by
  cases w with
  | s x => exact absurd rfl (hws x)
  | b x => exact ⟨_, rfl⟩
  | n x => exact ⟨_, rfl⟩
  | null => exact absurd rfl hwn

theorem parseBoolField_bad (name : String) (w : JVal) (hwn : w ≠ JVal.null)
    (hwb : ∀ x, w ≠ JVal.b x) :
    ∃ e, parseBoolField name (some w) = Except.error e := by
  cases w with
  | s x => exact ⟨_, rfl⟩
  | b x => exact absurd rfl (hwb x)
  | n x => exact ⟨_, rfl⟩
  | null => exact absurd rfl hwn

/-- Inversion of a successful `parse_args` for the update profile. -/
theorem parseUpdate_ok (body : UpdateBody) (args : UpdateArgs)
    (h : parseUpdate body = Except.ok args) :
    parseStrField "title" body.title = Except.ok args.title ∧
    parseStrField "description" body.description = Except.ok args.description ∧
    parseBoolField "done" body.done = Except.ok args.done := by
  unfold parseUpdate at h
  cases h1 : parseStrField "title" body.title with
  | error e => rw [h1] at h; nomatch h
  | ok t =>
    rw [h1] at h
    cases h2 : parseStrField "description" body.description with
    | error e => rw [h2] at h; nomatch h
    | ok d =>
      rw [h2] at h
      cases h3 : parseBoolField "done" body.done with
      | error e => rw [h3] at h; nomatch h
      | ok dn =>
        rw [h3] at h
        injection h with h
        subst h
        exact ⟨rfl, rfl, rfl⟩

/-- A wrong-typed present field makes the update-profile `parse_args` fail. -/
theorem parseUpdate_error_of_bad (body : UpdateBody)
    (hbad : badStr body.title ∨ badStr body.description ∨ badBool body.done) :
    ∃ e, parseUpdate body = Except.error e := by
  cases hp : parseUpdate body with
  | error e => exact ⟨e, rfl⟩
  | ok args =>
    exfalso
    obtain ⟨h1, h2, h3⟩ := parseUpdate_ok body args hp
    rcases hbad with ⟨w, hw, hwn, hws⟩ | ⟨w, hw, hwn, hws⟩ | ⟨w, hw, hwn, hwb⟩
    · obtain ⟨e, he⟩ := parseStrField_bad "title" w hwn hws
      rw [hw, he] at h1
      nomatch h1
    · obtain ⟨e, he⟩ := parseStrField_bad "description" w hwn hws
      rw [hw, he] at h2
      nomatch h2
    · obtain ⟨e, he⟩ := parseBoolField_bad "done" w hwn hwb
      rw [hw, he] at h3
      nomatch h3

theorem wf_taskList_get (s : List Task) : wellFormedBody (taskList_get s).1.body := by
  intro e he
  rcases List.mem_map.1 he with ⟨t, _, rfl⟩
  exact ⟨t, rfl⟩

theorem wf_taskList_post (s : List Task) (body : CreateBody) :
    wellFormedBody (taskList_post s body).1.body := by
  unfold taskList_post
  cases parseCreate body with
  | error e => trivial
  | ok pr =>
    obtain ⟨t, d⟩ := pr
    exact ⟨_, rfl⟩

theorem wf_task_get (s : List Task) (id : Nat) :
    wellFormedBody (task_get s id).1.body := by
  unfold task_get
  cases firstMatch s id with
  | none => trivial
  | some t => exact ⟨t, rfl⟩

theorem wf_task_put (s : List Task) (id : Nat) (body : UpdateBody) :
    wellFormedBody (task_put s id body).1.body := by
  unfold task_put
  cases firstMatch s id with
  | none => trivial
  | some t =>
    cases parseUpdate body with
    | error e => trivial
    | ok args => exact ⟨applyPatch t args, rfl⟩

theorem wf_task_delete (s : List Task) (id : Nat) :
    wellFormedBody (task_delete s id).1.body := by
  unfold task_delete
  cases firstMatch s id with
  | none => trivial
  | some t => trivial

theorem wf_handle (c : Creds) (r : Request) (s : List Task) :
    wellFormedBody (handle c r s).1.body := by
  unfold handle
  by_cases hc : authOk c = true
  · rw [if_pos hc]
    cases r with
    | listTasks => exact wf_taskList_get s
    | createTask body => exact wf_taskList_post s body
    | getTask id => exact wf_task_get s id
    | putTask id body => exact wf_task_put s id body
    | deleteTask id => exact wf_task_delete s id
  · rw [if_neg hc]
    trivial

/-- C10: the initial store holds exactly the two hardcoded tasks of
`app.py` (id 1 "Buy groceries" and id 2 "Learn Python", both with
`done = False`), and the first id assigned by a create on the fresh store
is 3. -/
theorem initial_store_contents :
    tasks = [⟨1, "Buy groceries", "Milk, Cheese, Pizza, Fruit", false⟩,
             ⟨2, "Learn Python", "Need to find a good Python tutorial on the web", false⟩] ∧
    tasks.length = 2 ∧
    nextId tasks = 3 ∧
    taskList_post tasks ⟨some (JVal.s "Buy milk"), none⟩ =
      (⟨201, Body.taskObj (marshal ⟨3, "Buy milk", "", false⟩)⟩,
        tasks ++ [⟨3, "Buy milk", "", false⟩]) :=
  ⟨rfl, rfl, rfl, rfl⟩

/-- C4: on any of the five endpoints, a request whose Basic credentials do
not exactly match the stored pair (`user1`, `password`) is answered with
status 403 and body `{message: "Unauthorized access"}` before anything else
runs, and the store is unchanged. -/
theorem auth_failure_rejected (c : Creds) (r : Request) (s : List Task)
    (h : ¬(c.username = "user1" ∧ c.password = "password")) :
    handle c r s = (⟨403, Body.message "Unauthorized access"⟩, s) := by
  have hc : authOk c = false := by
    by_cases hu : c.username = "user1"
    · have hp : c.password ≠ "password" := fun hp => h ⟨hu, hp⟩
      unfold authOk get_password
      rw [if_pos hu]
      show (c.password == "password") = false
      simp [hp]
    · unfold authOk get_password
      rw [if_neg hu]
  unfold handle
  rw [hc]
  simp

/-- Witness for C4: wrong password on the collection GET endpoint. -/
theorem auth_failure_rejected_witness :
    handle ⟨"user1", "wrong"⟩ Request.listTasks tasks =
      (⟨403, Body.message "Unauthorized access"⟩, tasks) :=
  auth_failure_rejected ⟨"user1", "wrong"⟩ Request.listTasks tasks (by decide)

/-- C8: the serialized external form of a task is exactly
`{title, description, done, uri}` with `uri = /todo/api/v1.0/tasks/{id}`;
there is no `id` field in the external shape, list responses serialize every
stored task this way, and every task payload in any response of any endpoint
is such a serialization. -/
theorem external_shape_no_id (c : Creds) (r : Request) (s : List Task)
    (t : Task) (e : ExtTask) :
    marshal t = ⟨t.title, t.description, t.done,
      "/todo/api/v1.0/tasks/" ++ toString t.id⟩ ∧
    e = ⟨e.title, e.description, e.done, e.uri⟩ ∧
    (taskList_get s).1.body = Body.tasksList (s.map marshal) ∧
    wellFormedBody (handle c r s).1.body :=
  ⟨rfl, rfl, rfl, wf_handle c r s⟩

/-- C9: in every store state reachable from the initial state through the
five operations, task ids are strictly increasing in list order; hence the
ids are pairwise distinct and the code's last-id-plus-one computation
(`nextId`) agrees with the spec's max-id-plus-one-or-one (`specNextId`). -/
theorem reachable_ids_strictly_increasing (s : List Task) (h : Reachable s) :
    List.Pairwise (· < ·) (s.map Task.id) ∧
    (s.map Task.id).Nodup ∧
    nextId s = specNextId s := by
  have hi := reachable_inv s h
  exact ⟨hi, List.Pairwise.imp (fun hlt => Nat.ne_of_lt hlt) hi,
    nextId_eq_specNextId s hi⟩

/-- Witness for C9: the invariant evaluated at the initial store. -/
theorem reachable_ids_strictly_increasing_witness :
    List.Pairwise (· < ·) (tasks.map Task.id) ∧
    (tasks.map Task.id).Nodup ∧
    nextId tasks = specNextId tasks :=
  reachable_ids_strictly_increasing tasks Reachable.init

/-- C5: failing requests leave the store unchanged: a POST whose body lacks
`title` is answered 400 with the `No task title provided` message and the
same store, and GET/PUT/DELETE on an id not present in the store are
answered 404 with the same store. -/
theorem failing_requests_leave_store_unchanged (s : List Task)
    (cb : CreateBody) (ub : UpdateBody) (id : Nat) (hcb : cb.title = none)
    (hid : ∀ t ∈ s, t.id ≠ id) :
    taskList_post s cb = (⟨400, Body.validationError "No task title provided"⟩, s) ∧
    task_get s id = (⟨404, Body.notFound⟩, s) ∧
    task_put s id ub = (⟨404, Body.notFound⟩, s) ∧
    task_delete s id = (⟨404, Body.notFound⟩, s) := by
  have hfm : firstMatch s id = none := (firstMatch_none_iff s id).2 hid
  refine ⟨?_, ?_, ?_, ?_⟩
  · unfold taskList_post parseCreate
    rw [hcb]
  · unfold task_get
    rw [hfm]
  · unfold task_put
    rw [hfm]
  · unfold task_delete
    rw [hfm]

/-- Witness for C5: a title-less POST body and the non-existent id 9999
against the initial store. -/
theorem failing_requests_leave_store_unchanged_witness :
    taskList_post tasks ⟨none, none⟩ =
      (⟨400, Body.validationError "No task title provided"⟩, tasks) ∧
    task_get tasks 9999 = (⟨404, Body.notFound⟩, tasks) ∧
    task_put tasks 9999 ⟨none, none, none⟩ = (⟨404, Body.notFound⟩, tasks) ∧
    task_delete tasks 9999 = (⟨404, Body.notFound⟩, tasks) :=
  failing_requests_leave_store_unchanged tasks ⟨none, none⟩ ⟨none, none, none⟩
    9999 rfl (by decide)

/-- C1: on every (reachable) store state, a successful create assigns the
new task the spec's id — one greater than the maximum id present, or 1 on
an empty store (`specNextId`) — appends the new task at the end, and
returns the new record serialized with status 201. -/
theorem create_assigns_max_plus_one (s : List Task) (h : Reachable s)
    (body : CreateBody) (t d : String)
    (hp : parseCreate body = Except.ok (t, d)) :
    taskList_post s body =
      (⟨201, Body.taskObj (marshal ⟨specNextId s, t, d, false⟩)⟩,
        s ++ [⟨specNextId s, t, d, false⟩]) := by
  have hid : nextId s = specNextId s := nextId_eq_specNextId s (reachable_inv s h)
  unfold taskList_post
  rw [hp, ← hid]

/-- Witness for C1: creating "Buy milk" on the initial store. -/
theorem create_assigns_max_plus_one_witness :
    taskList_post tasks ⟨some (JVal.s "Buy milk"), none⟩ =
      (⟨201, Body.taskObj (marshal ⟨specNextId tasks, "Buy milk", "", false⟩)⟩,
        tasks ++ [⟨specNextId tasks, "Buy milk", "", false⟩]) :=
  create_assigns_max_plus_one tasks Reachable.init
    ⟨some (JVal.s "Buy milk"), none⟩ "Buy milk" "" rfl

/-- C7: an authenticated POST with a string `title` and no `description`
creates a task with empty description, `done = false` and an id distinct
from every id in the store at the moment of insertion, answered as
`{task: serialized}` with status 201. -/
theorem create_without_description (s : List Task) (h : Reachable s)
    (body : CreateBody) (t : String) (hb : body.title = some (JVal.s t))
    (hd : body.description = none) :
    handle ⟨"user1", "password"⟩ (Request.createTask body) s =
      (⟨201, Body.taskObj (marshal ⟨nextId s, t, "", false⟩)⟩,
        s ++ [⟨nextId s, t, "", false⟩]) ∧
    ∀ u ∈ s, u.id ≠ nextId s := by
  constructor
  · have hp : parseCreate body = Except.ok (t, "") := by
      unfold parseCreate
      rw [hb, hd]
      rfl
    unfold handle
    rw [if_pos (by decide : authOk ⟨"user1", "password"⟩ = true)]
    show taskList_post s body = _
    unfold taskList_post
    rw [hp]
  · intro u hu
    exact Nat.ne_of_lt (mem_id_lt_nextId s (reachable_inv s h) u hu)

/-- Witness for C7: POST of "Buy milk" without description on the initial
store. -/
theorem create_without_description_witness :
    handle ⟨"user1", "password"⟩
        (Request.createTask ⟨some (JVal.s "Buy milk"), none⟩) tasks =
      (⟨201, Body.taskObj (marshal ⟨nextId tasks, "Buy milk", "", false⟩)⟩,
        tasks ++ [⟨nextId tasks, "Buy milk", "", false⟩]) :=
  (create_without_description tasks Reachable.init
    ⟨some (JVal.s "Buy milk"), none⟩ "Buy milk" rfl rfl).1

/-- C6: deleting an id present in a reachable store removes exactly the one
record with that id, preserves the relative order of the remaining tasks
(the result is a sublist), shrinks the store by exactly one, answers
`{result: true}` with 200, and a subsequent GET of that id answers 404. -/
theorem delete_removes_exactly_one (s : List Task) (id : Nat)
    (h : Reachable s) (t : Task) (ht : t ∈ s) (hid : t.id = id) :
    task_delete s id = (⟨200, Body.resultTrue⟩, removeFirst s id) ∧
    (removeFirst s id).length + 1 = s.length ∧
    List.Sublist (removeFirst s id) s ∧
    (∀ u ∈ s, u.id ≠ id → u ∈ removeFirst s id) ∧
    (∀ u ∈ removeFirst s id, u.id ≠ id) ∧
    task_get (removeFirst s id) id = (⟨404, Body.notFound⟩, removeFirst s id) := by
  have hinv := reachable_inv s h
  obtain ⟨u0, hu0⟩ := firstMatch_isSome s id t ht hid
  have hnom := removeFirst_no_match id s hinv
  refine ⟨?_, removeFirst_length s id t ht hid, removeFirst_sublist s id,
    fun u hu hne => mem_removeFirst_of_ne id u s hu hne, hnom, ?_⟩
  · unfold task_delete
    rw [hu0]
  · unfold task_get
    rw [(firstMatch_none_iff _ id).2 hnom]

/-- Witness for C6: deleting id 1 from the initial store. -/
theorem delete_removes_exactly_one_witness :
    task_delete tasks 1 = (⟨200, Body.resultTrue⟩, removeFirst tasks 1) ∧
    (removeFirst tasks 1).length + 1 = tasks.length ∧
    task_get (removeFirst tasks 1) 1 = (⟨404, Body.notFound⟩, removeFirst tasks 1) := by
  have h := delete_removes_exactly_one tasks 1 Reachable.init
    ⟨1, "Buy groceries", "Milk, Cheese, Pizza, Fruit", false⟩ (by decide) rfl
  exact ⟨h.1, h.2.1, h.2.2.2.2.2⟩

/-- C2: a PUT on a stored task overwrites exactly the fields among
title/description/done supplied with a non-absent, non-null value; fields
absent or null in the patch, and the task's id, keep their prior values;
tasks with a different id are untouched; and the updated record is returned
serialized with status 200. -/
theorem put_updates_exactly_present_fields (s : List Task) (id : Nat)
    (body : UpdateBody) (t : Task) (ht : firstMatch s id = some t)
    (args : UpdateArgs) (hp : parseUpdate body = Except.ok args) :
    task_put s id body =
      (⟨200, Body.taskObj (marshal (applyPatch t args))⟩,
        updateFirst s id args) ∧
    (applyPatch t args).id = t.id ∧
    ((body.title = none ∨ body.title = some JVal.null) →
      (applyPatch t args).title = t.title) ∧
    (∀ v, body.title = some (JVal.s v) → (applyPatch t args).title = v) ∧
    ((body.description = none ∨ body.description = some JVal.null) →
      (applyPatch t args).description = t.description) ∧
    (∀ v, body.description = some (JVal.s v) →
      (applyPatch t args).description = v) ∧
    ((body.done = none ∨ body.done = some JVal.null) →
      (applyPatch t args).done = t.done) ∧
    (∀ v, body.done = some (JVal.b v) → (applyPatch t args).done = v) ∧
    (∀ u ∈ s, u.id ≠ id → u ∈ updateFirst s id args) := by
  obtain ⟨h1, h2, h3⟩ := parseUpdate_ok body args hp
  refine ⟨?_, rfl, ?_, ?_, ?_, ?_, ?_, ?_,
    fun u hu hne => mem_updateFirst_of_ne id args u s hu hne⟩
  · unfold task_put
    rw [ht, hp]
  · intro hv
    have hx := parseStrField_ok_none "title" body.title args.title h1 hv
    simp [applyPatch, hx]
  · intro v hv
    have hx := parseStrField_ok_some "title" body.title args.title v h1 hv
    simp [applyPatch, hx]
  · intro hv
    have hx := parseStrField_ok_none "description" body.description
      args.description h2 hv
    simp [applyPatch, hx]
  · intro v hv
    have hx := parseStrField_ok_some "description" body.description
      args.description v h2 hv
    simp [applyPatch, hx]
  · intro hv
    have hx := parseBoolField_ok_none "done" body.done args.done h3 hv
    simp [applyPatch, hx]
  · intro v hv
    have hx := parseBoolField_ok_some "done" body.done args.done v h3 hv
    simp [applyPatch, hx]

/-- Witness for C2: PUT `{done: true}` on task 1 of the initial store. -/
theorem put_updates_exactly_present_fields_witness :
    task_put tasks 1 ⟨none, none, some (JVal.b true)⟩ =
      (⟨200, Body.taskObj (marshal (applyPatch
          ⟨1, "Buy groceries", "Milk, Cheese, Pizza, Fruit", false⟩
          ⟨none, none, some true⟩))⟩,
        updateFirst tasks 1 ⟨none, none, some true⟩) ∧
    (applyPatch ⟨1, "Buy groceries", "Milk, Cheese, Pizza, Fruit", false⟩
        ⟨none, none, some true⟩).id = 1 := by
  have h := put_updates_exactly_present_fields tasks 1
    ⟨none, none, some (JVal.b true)⟩
    ⟨1, "Buy groceries", "Milk, Cheese, Pizza, Fruit", false⟩ (by decide)
    ⟨none, none, some true⟩ rfl
  exact ⟨h.1, h.2.1⟩

/-- C3: a PUT on a stored task whose body carries a present field of the
wrong type — `done` not a boolean, or `title`/`description` not a string —
fails with a ValidationError surfaced as HTTP 400, and the store is
unchanged (no coerced value is applied). -/
theorem put_wrong_type_rejected (s : List Task) (id : Nat)
    (body : UpdateBody) (t : Task) (ht : firstMatch s id = some t)
    (hbad : badStr body.title ∨ badStr body.description ∨ badBool body.done) :
    (task_put s id body).1.status = 400 ∧
    isValidationError (task_put s id body).1.body = true ∧
    (task_put s id body).2 = s := by
  obtain ⟨e, he⟩ := parseUpdate_error_of_bad body hbad
  unfold task_put
  rw [ht, he]
  exact ⟨rfl, rfl, rfl⟩

/-- Witness for C3: PUT with the number 5 as `done` on task 1. -/
theorem put_wrong_type_rejected_witness :
    (task_put tasks 1 ⟨none, none, some (JVal.n 5)⟩).1.status = 400 ∧
    isValidationError (task_put tasks 1 ⟨none, none, some (JVal.n 5)⟩).1.body = true ∧
    (task_put tasks 1 ⟨none, none, some (JVal.n 5)⟩).2 = tasks :=
  put_wrong_type_rejected tasks 1 ⟨none, none, some (JVal.n 5)⟩
    ⟨1, "Buy groceries", "Milk, Cheese, Pizza, Fruit", false⟩ (by decide)
    (Or.inr (Or.inr ⟨JVal.n 5, rfl,
      ⟨(by intro hx; cases hx), (by intro x hx; cases hx)⟩⟩))

end Todo
